import Mathlib

/-!
Verification of the PPAPI variant-marshaling layer (`PPB_Var`) exercised by
`src/tests/test_var.cc`.  The repository under `src/` contains only the
conformance tests and a C++ header; the host-side implementation of the
`PPB_Var` / `PPB_Testing_Dev` interfaces lives in the browser process and is
not part of `src/`.  Following the spec (sections 3, 4, 6, 7), the host
behaviour is modelled here as a state machine over reference-counted string
and object tables, and the claims are settled against this model.
-/

/-- Modelled from the spec: the tag of the tagged-union variant value
`PP_Var` (spec section 3), a discriminated union over
void, null, bool, int32, double, string-id and object-id. -/
inductive PP_VarType where
  | void
  | null
  | bool
  | int32
  | double
  | string
  | object
deriving DecidableEq, Repr

/-- Modelled from the spec: the `PP_Var` value itself — a type tag plus a
payload slot.  For string and object variants the payload is the opaque
64-bit identifier (`value.as_id` in the C struct); for scalar variants it
carries the scalar payload, which none of the modelled operations inspect. -/
structure PP_Var where
  type : PP_VarType
  value : Int
deriving DecidableEq, Repr

/-- Modelled from the spec: `PP_MakeVoid()`. -/
def PP_MakeVoid : PP_Var := ⟨PP_VarType.void, 0⟩

/-- Modelled from the spec: `PP_MakeNull()`. -/
def PP_MakeNull : PP_Var := ⟨PP_VarType.null, 0⟩

/-- Modelled from the spec: `PP_MakeBool(b)`. -/
def PP_MakeBool (b : Bool) : PP_Var := ⟨PP_VarType.bool, if b then 1 else 0⟩

/-- Modelled from the spec: `PP_MakeInt32(i)`. -/
def PP_MakeInt32 (i : Int) : PP_Var := ⟨PP_VarType.int32, i⟩

/-- Modelled from the spec: a double-typed variant; the floating-point
payload is not modelled because no modelled operation reads it. -/
def PP_MakeDoubleTag : PP_Var := ⟨PP_VarType.double, 0⟩

/-! ## UTF-8 well-formedness

Modelled from the spec: "Input validation rejects byte sequences that are
not well-formed UTF-8" (spec section 4.1).  The validator is the standard
one-byte-at-a-time DFA for well-formed UTF-8 (RFC 3629 table): it rejects
continuation-byte starts, overlong encodings, surrogates and code points
above U+10FFFF.  A DFA state is `(k, lo, hi)`: `k` continuation bytes are
still expected and the next byte must lie in `[lo, hi]`. -/

/-- One DFA transition on byte `b`; `none` means the input is rejected. -/
def utf8Step (s : Nat × Nat × Nat) (b : Nat) : Option (Nat × Nat × Nat) :=
  match s with
  | (0, _, _) =>
    if b ≤ 0x7F then some (0, 0, 0)
    else if b ≤ 0xC1 then none
    else if b ≤ 0xDF then some (1, 0x80, 0xBF)
    else if b = 0xE0 then some (2, 0xA0, 0xBF)
    else if b = 0xED then some (2, 0x80, 0x9F)
    else if b ≤ 0xEF then some (2, 0x80, 0xBF)
    else if b = 0xF0 then some (3, 0x90, 0xBF)
    else if b ≤ 0xF3 then some (3, 0x80, 0xBF)
    else if b = 0xF4 then some (3, 0x80, 0x8F)
    else none
  | (k + 1, lo, hi) =>
    if lo ≤ b ∧ b ≤ hi then some (k, 0x80, 0xBF) else none

/-- Run the DFA over a byte list. -/
def utf8Run (s : Nat × Nat × Nat) : List Nat → Option (Nat × Nat × Nat)
  | [] => some s
  | b :: rest =>
    match utf8Step s b with
    | none => none
    | some s2 => utf8Run s2 rest

/-- Modelled from the spec: a byte sequence is well-formed UTF-8 when the
DFA consumes it completely and ends outside a multi-byte sequence. -/
def validUtf8 (bytes : List Nat) : Bool :=
  match utf8Run (0, 0, 0) bytes with
  | some (0, _, _) => true
  | _ => false

/-! ## Host state -/

/-- Modelled from the spec: a live, reference-counted string payload owned
by the host process (spec section 3). -/
structure StringEntry where
  bytes : List Nat
  refcount : Nat
deriving DecidableEq, Repr

/-- Modelled from the spec: a live, reference-counted scriptable object.
Each property name carries a flag saying whether its value is callable;
"method" lookup reports exactly the callable properties, which realises the
spec's "anything reported as a method must also be reported as a property"
(spec section 4.2). -/
structure ObjectEntry where
  refcount : Nat
  props : List (List Nat × Bool)
deriving DecidableEq, Repr

/-- Modelled from the spec: the host-process state observed across the
`PPB_Var` boundary — the tables of live string and object payloads keyed by
their opaque identifiers, plus the next fresh identifier. -/
structure HostState where
  strings : List (Int × StringEntry)
  objects : List (Int × ObjectEntry)
  next_id : Int
deriving DecidableEq, Repr

/-- Look up the first table entry with the given identifier. -/
def lookupKey {α : Type} (id : Int) : List (Int × α) → Option α
  | [] => none
  | (k, e) :: rest => if k = id then some e else lookupKey id rest

/-- Remove the first table entry with the given identifier. -/
def eraseKey {α : Type} (id : Int) : List (Int × α) → List (Int × α)
  | [] => []
  | (k, e) :: rest => if k = id then rest else (k, e) :: eraseKey id rest

/-- Replace the payload of the first table entry with the given identifier. -/
def setKey {α : Type} (id : Int) (a : α) : List (Int × α) → List (Int × α)
  | [] => []
  | (k, e) :: rest => if k = id then (k, a) :: rest else (k, e) :: setKey id a rest

/-- Modelled from the spec: `GetLiveObjectCount(module)` of
`PPB_Testing_Dev` — the process-wide count of currently-allocated
refcounted payloads (spec glossary "Live-object count"). -/
def GetLiveObjectCount (st : HostState) : Nat :=
  st.strings.length + st.objects.length

/-- Allocate a fresh string payload with one reference. -/
def allocString (st : HostState) (bytes : List Nat) : PP_Var × HostState :=
  (⟨PP_VarType.string, st.next_id⟩,
   { strings := (st.next_id, ⟨bytes, 1⟩) :: st.strings
     objects := st.objects
     next_id := st.next_id + 1 })

/-- Allocate a fresh object payload with one reference. -/
def allocObject (st : HostState) (props : List (List Nat × Bool)) :
    PP_Var × HostState :=
  (⟨PP_VarType.object, st.next_id⟩,
   { strings := st.strings
     objects := (st.next_id, ⟨1, props⟩) :: st.objects
     next_id := st.next_id + 1 })

/-- Reading `len` bytes from a C buffer: a null pointer may be read only
for `len = 0` (spec section 4.1: "No operation may dereference a null
buffer pointer when length is 0"); a shorter-than-`len` buffer cannot be
read at all. -/
def readBuffer : Option (List Nat) → Nat → Option (List Nat)
  | some bs, len => if len ≤ bs.length then some (List.take len bs) else none
  | none, len => if len = 0 then some [] else none

/-- Modelled from the spec: `VarFromUtf8(module, bytes, length)` (spec
section 6), whose host-side implementation is not under `src/`.  A readable,
well-formed UTF-8 buffer (the pointer may be null when the length is 0)
yields a freshly allocated string variant holding an independently-owned
copy of the bytes; a malformed buffer yields the null variant and leaves
the state untouched. -/
def VarFromUtf8 (st : HostState) (data : Option (List Nat)) (len : Nat) :
    PP_Var × HostState :=
  match readBuffer data len with
  | none => (PP_MakeNull, st)
  | some bytes =>
    if validUtf8 bytes then allocString st bytes else (PP_MakeNull, st)

/-- Modelled from the spec: `VarToUtf8(variant, out_length*)` (spec
sections 4.1, 6, 8), whose host-side implementation is not under `src/`.
`len0` is the value held by the out-length location before the call; the
call overwrites it unconditionally — with the byte length for a live string
variant (returning its non-null buffer), and with 0 for every other
variant (returning a null buffer, modelled as `none`). -/
def VarToUtf8 (st : HostState) (v : PP_Var) (len0 : Nat) :
    Option (List Nat) × Nat :=
  if v.type = PP_VarType.string then
    match lookupKey v.value st.strings with
    | some e => (some e.bytes, e.bytes.length)
    | none => (none, 0)
  else (none, 0)

/-- Modelled from the spec: `Release(variant)` (spec sections 3, 6), whose
host-side implementation is not under `src/`.  Releasing a live string or
object reference decrements its refcount, freeing the payload at zero;
releasing anything else is a no-op. -/
def Release (st : HostState) (v : PP_Var) : HostState :=
  match v.type with
  | PP_VarType.string =>
    match lookupKey v.value st.strings with
    | some e =>
      if e.refcount ≤ 1 then { st with strings := eraseKey v.value st.strings }
      else { st with strings := setKey v.value ⟨e.bytes, e.refcount - 1⟩ st.strings }
    | none => st
  | PP_VarType.object =>
    match lookupKey v.value st.objects with
    | some e =>
      if e.refcount ≤ 1 then { st with objects := eraseKey v.value st.objects }
      else { st with objects := setKey v.value ⟨e.refcount - 1, e.props⟩ st.objects }
    | none => st
  | _ => st

/-- Does the name occur in the list of names? -/
def containsName (bs : List Nat) : List (List Nat) → Bool
  | [] => false
  | n :: rest => if n = bs then true else containsName bs rest

/-- The property names of an object. -/
def propNames (oe : ObjectEntry) : List (List Nat) :=
  oe.props.map Prod.fst

/-- The method names of an object: its callable properties. -/
def methodNames (oe : ObjectEntry) : List (List Nat) :=
  (oe.props.filter Prod.snd).map Prod.fst

/-- The byte content of the exception value delivered on a hard error
("Error"). -/
def kExceptionBytes : List Nat := [69, 114, 114, 111, 114]

/-- Allocate the non-void (string) exception value delivered on a hard
error. -/
def mkException (st : HostState) : PP_Var × HostState :=
  allocString st kExceptionBytes

/-- Modelled from the spec: the shared shape of `HasProperty` and
`HasMethod` (spec sections 4.2, 7), whose host-side implementation is not
under `src/`.  If the exception output already holds a non-void value the
call is a no-op returning false; a property name that is not a live string,
a target that is not object-typed, or a dangling object identifier is a
hard error returning false with a freshly allocated non-void exception;
otherwise the lookup `check` runs and the exception output stays void. -/
def hasLookup (st : HostState) (obj name exc : PP_Var)
    (check : ObjectEntry → List Nat → Bool) : Bool × PP_Var × HostState :=
  if exc.type = PP_VarType.void then
    match (if name.type = PP_VarType.string
           then lookupKey name.value st.strings else none) with
    | some se =>
      if obj.type = PP_VarType.object then
        match lookupKey obj.value st.objects with
        | some oe => (check oe se.bytes, exc, st)
        | none =>
          match mkException st with
          | (e, st2) => (false, e, st2)
      else
        match mkException st with
        | (e, st2) => (false, e, st2)
    | none =>
      match mkException st with
      | (e, st2) => (false, e, st2)
  else (false, exc, st)

/-- Modelled from the spec: `HasProperty(object_variant, name_variant,
out_exception*)` (spec section 6). -/
def HasProperty (st : HostState) (obj name exc : PP_Var) :
    Bool × PP_Var × HostState :=
  hasLookup st obj name exc (fun oe bs => containsName bs (propNames oe))

/-- Modelled from the spec: `HasMethod(object_variant, name_variant,
out_exception*)` (spec section 6). -/
def HasMethod (st : HostState) (obj name exc : PP_Var) :
    Bool × PP_Var × HostState :=
  hasLookup st obj name exc (fun oe bs => containsName bs (methodNames oe))

/-! ## Concrete data used by witnesses -/

/-- The bytes of "find". -/
def kFindBytes : List Nat := [102, 105, 110, 100]

/-- The bytes of "scrollX". -/
def kScrollXBytes : List Nat := [115, 99, 114, 111, 108, 108, 88]

/-- The bytes of "superEvilBit". -/
def kMissingBytes : List Nat :=
  [115, 117, 112, 101, 114, 69, 118, 105, 108, 66, 105, 116]

/-- The UTF-8 bytes with an embedded null used by `TestUtf8WithEmbeddedNulls`
("\xe6\xb9\x9f\xe6\x98\xaf\0utf8."). -/
def kEmbeddedNullBytes : List Nat :=
  [0xE6, 0xB9, 0x9F, 0xE6, 0x98, 0xAF, 0, 117, 116, 102, 56, 46]

/-- The Shift-JIS (not UTF-8) bytes used by `TestInvalidUtf8`
("utf8\x82\xb6\x82\xe1\x82\xc8\x82\xa2"). -/
def kSjisBytes : List Nat :=
  [117, 116, 102, 56, 0x82, 0xB6, 0x82, 0xE1, 0x82, 0xC8, 0x82, 0xA2]

/-- A concrete host state used by witnesses: live strings "find" (id 1),
"scrollX" (id 2), "" (id 3) and "superEvilBit" (id 4), and one live object
(id 10) whose properties are a callable "find" and a plain "scrollX". -/
def stW : HostState :=
  { strings := [(1, ⟨kFindBytes, 1⟩), (2, ⟨kScrollXBytes, 1⟩),
                (3, ⟨[], 1⟩), (4, ⟨kMissingBytes, 1⟩)]
    objects := [(10, ⟨1, [(kFindBytes, true), (kScrollXBytes, false)]⟩)]
    next_id := 20 }

/-! ## Theorems -/

/-- Claim C1: for every well-formed UTF-8 byte sequence (any length,
embedded null bytes included), `VarFromUtf8` yields a string-typed variant
and `VarToUtf8` on it returns the original bytes with the original
length. -/
theorem varFromUtf8_varToUtf8_roundtrip (st : HostState) (bytes : List Nat)
    (len0 : Nat) (h : validUtf8 bytes = true) :
    (VarFromUtf8 st (some bytes) bytes.length).1.type = PP_VarType.string ∧
    VarToUtf8 (VarFromUtf8 st (some bytes) bytes.length).2
      (VarFromUtf8 st (some bytes) bytes.length).1 len0
      = (some bytes, bytes.length) := by
  have hv : VarFromUtf8 st (some bytes) bytes.length = allocString st bytes := by
    simp [VarFromUtf8, readBuffer, h]
  rw [hv]
  exact ⟨rfl, by simp [VarToUtf8, allocString, lookupKey]⟩

/-- Witness for C1: the round trip at the embedded-null UTF-8 bytes of
`TestUtf8WithEmbeddedNulls`. -/
theorem varFromUtf8_varToUtf8_roundtrip_witness :
    validUtf8 kEmbeddedNullBytes = true ∧
    ((VarFromUtf8 stW (some kEmbeddedNullBytes) kEmbeddedNullBytes.length).1.type
        = PP_VarType.string ∧
     VarToUtf8 (VarFromUtf8 stW (some kEmbeddedNullBytes) kEmbeddedNullBytes.length).2
       (VarFromUtf8 stW (some kEmbeddedNullBytes) kEmbeddedNullBytes.length).1 0
       = (some kEmbeddedNullBytes, kEmbeddedNullBytes.length)) :=
  ⟨by decide, varFromUtf8_varToUtf8_roundtrip stW kEmbeddedNullBytes 0 (by decide)⟩

/-- Claim C3: `VarToUtf8` returns the live string's non-null buffer with
its correct length (zero-length included), and returns a null buffer with
length 0 for every non-string variant and every dead string identifier. -/
theorem varToUtf8_classification (st : HostState) (v : PP_Var) (len0 : Nat) :
    (∀ e, v.type = PP_VarType.string → lookupKey v.value st.strings = some e →
      VarToUtf8 st v len0 = (some e.bytes, e.bytes.length)) ∧
    ((v.type ≠ PP_VarType.string ∨ lookupKey v.value st.strings = none) →
      VarToUtf8 st v len0 = (none, 0)) := by
  constructor
  · intro e ht hl
    simp [VarToUtf8, ht, hl]
  · intro h
    rcases h with h | h
    · simp [VarToUtf8, h]
    · by_cases ht : v.type = PP_VarType.string
      · simp [VarToUtf8, ht, h]
      · simp [VarToUtf8, ht]

/-- Witness for C3: the zero-length live string (id 3 in `stW`) yields a
non-null buffer of length 0, and an int32 variant yields a null buffer. -/
theorem varToUtf8_classification_witness :
    VarToUtf8 stW ⟨PP_VarType.string, 3⟩ 7 = (some [], 0) ∧
    VarToUtf8 stW ⟨PP_VarType.int32, 42⟩ 7 = (none, 0) :=
  ⟨(varToUtf8_classification stW ⟨PP_VarType.string, 3⟩ 7).1 ⟨[], 1⟩ rfl (by decide),
   (varToUtf8_classification stW ⟨PP_VarType.int32, 42⟩ 7).2 (Or.inl (by decide))⟩

/-- Claim C5: a byte sequence that is not well-formed UTF-8 makes
`VarFromUtf8` fail with the null variant, leaving the host state
untouched — no partially-converted or substituted string is ever
allocated. -/
theorem varFromUtf8_rejects_invalid (st : HostState) (bytes : List Nat)
    (h : validUtf8 bytes = false) :
    VarFromUtf8 st (some bytes) bytes.length = (PP_MakeNull, st) := by
  simp [VarFromUtf8, readBuffer, h]

/-- Witness for C5: the Shift-JIS bytes of `TestInvalidUtf8` are rejected. -/
theorem varFromUtf8_rejects_invalid_witness :
    validUtf8 kSjisBytes = false ∧
    VarFromUtf8 stW (some kSjisBytes) kSjisBytes.length = (PP_MakeNull, stW) :=
  ⟨by decide, varFromUtf8_rejects_invalid stW kSjisBytes (by decide)⟩

/-- Claim C6: `VarFromUtf8` on a null buffer pointer with length 0
succeeds without reading the pointer and yields a string-typed variant for
the empty string; `VarToUtf8` on it returns a non-null buffer and writes
length 0. -/
theorem varFromUtf8_null_pointer_empty (st : HostState) (len0 : Nat) :
    (VarFromUtf8 st none 0).1.type = PP_VarType.string ∧
    VarToUtf8 (VarFromUtf8 st none 0).2 (VarFromUtf8 st none 0).1 len0
      = (some [], 0) := by
  have hval : validUtf8 [] = true := rfl
  have hv : VarFromUtf8 st none 0 = allocString st [] := by
    simp [VarFromUtf8, readBuffer, hval]
  rw [hv]
  exact ⟨rfl, by simp [VarToUtf8, allocString, lookupKey]⟩

/-- Claim C10: on every failing `VarToUtf8` call the out-length location
is written to 0 whatever it held before (the result does not depend on the
pre-call value, sentinels included). -/
theorem varToUtf8_failure_out_length_zero (st : HostState) (v : PP_Var)
    (len0 : Nat)
    (h : v.type ≠ PP_VarType.string ∨ lookupKey v.value st.strings = none) :
    (VarToUtf8 st v len0).2 = 0 ∧ VarToUtf8 st v len0 = VarToUtf8 st v 0 := by
  refine ⟨?_, rfl⟩
  rcases h with h | h
  · simp [VarToUtf8, h]
  · by_cases ht : v.type = PP_VarType.string
    · simp [VarToUtf8, ht, h]
    · simp [VarToUtf8, ht]

/-- Witness for C10: the dangling string identifier 31415926 of
`TestInvalidAndEmpty` with the pre-call sentinel `UINT32_MAX`. -/
theorem varToUtf8_failure_out_length_zero_witness :
    (VarToUtf8 stW ⟨PP_VarType.string, 31415926⟩ 4294967295).2 = 0 ∧
    VarToUtf8 stW ⟨PP_VarType.string, 31415926⟩ 4294967295
      = VarToUtf8 stW ⟨PP_VarType.string, 31415926⟩ 0 :=
  varToUtf8_failure_out_length_zero stW ⟨PP_VarType.string, 31415926⟩
    4294967295 (Or.inr (by decide))

/-- `containsName` agrees with list membership. -/
lemma containsName_iff (bs : List Nat) (l : List (List Nat)) :
    containsName bs l = true ↔ bs ∈ l := by
  induction l with
  | nil => simp [containsName]
  | cons n rest ih =>
    by_cases h : n = bs
    · simp [containsName, h, List.mem_cons]
    · have h2 : ¬bs = n := fun hh => h hh.symm
      simp [containsName, h, h2, ih, List.mem_cons]

/-- Every method name of an object is also one of its property names. -/
lemma methodNames_subset_propNames (oe : ObjectEntry) (bs : List Nat)
    (h : containsName bs (methodNames oe) = true) :
    containsName bs (propNames oe) = true := by
  rw [containsName_iff] at h ⊢
  unfold methodNames propNames at *
  rcases List.mem_map.1 h with ⟨p, hp, hpe⟩
  exact List.mem_map.2 ⟨p, List.mem_of_mem_filter hp, hpe⟩

/-- `hasLookup` with a non-void exception on entry is a no-op returning
false. -/
lemma hasLookup_preset (st : HostState) (obj name exc : PP_Var)
    (check : ObjectEntry → List Nat → Bool)
    (h : exc.type ≠ PP_VarType.void) :
    hasLookup st obj name exc check = (false, exc, st) := by
  simp [hasLookup, h]

/-- `hasLookup` on an invalid name or target returns false with a
non-void exception. -/
lemma hasLookup_invalid (st : HostState) (obj name exc : PP_Var)
    (check : ObjectEntry → List Nat → Bool)
    (h : name.type ≠ PP_VarType.string ∨ obj.type ≠ PP_VarType.object ∨
         lookupKey obj.value st.objects = none) :
    (hasLookup st obj name exc check).1 = false ∧
    (hasLookup st obj name exc check).2.1.type ≠ PP_VarType.void := by
  unfold hasLookup
  by_cases he : exc.type = PP_VarType.void
  · rw [if_pos he]
    rcases h with h | h | h
    · simp [h, mkException, allocString]
    · cases hn : (if name.type = PP_VarType.string
                  then lookupKey name.value st.strings else none) with
      | none => simp [mkException, allocString]
      | some se => simp [h, mkException, allocString]
    · cases hn : (if name.type = PP_VarType.string
                  then lookupKey name.value st.strings else none) with
      | none => simp [mkException, allocString]
      | some se =>
        by_cases ho : obj.type = PP_VarType.object
        · simp [ho, h, mkException, allocString]
        · simp [ho, mkException, allocString]
  · rw [if_neg he]
    exact ⟨rfl, he⟩

/-- `hasLookup` on a live object, a live string name and a void exception
performs the lookup and leaves the exception and the state alone. -/
lemma hasLookup_valid (st : HostState) (obj name exc : PP_Var)
    (se : StringEntry) (oe : ObjectEntry)
    (check : ObjectEntry → List Nat → Bool)
    (hexc : exc.type = PP_VarType.void)
    (hn : name.type = PP_VarType.string)
    (hns : lookupKey name.value st.strings = some se)
    (ho : obj.type = PP_VarType.object)
    (hos : lookupKey obj.value st.objects = some oe) :
    hasLookup st obj name exc check = (check oe se.bytes, exc, st) := by
  simp [hasLookup, hexc, hn, hns, ho, hos]

/-- Claim C2: a `HasProperty` or `HasMethod` call whose property-name
argument is not a (live) string, or whose target is a non-object variant,
or whose target is a dangling object identifier, returns false and leaves
a non-void value in the exception output. -/
theorem has_calls_invalid_args (st : HostState) (obj name exc : PP_Var)
    (h : name.type ≠ PP_VarType.string ∨ obj.type ≠ PP_VarType.object ∨
         lookupKey obj.value st.objects = none) :
    (HasProperty st obj name exc).1 = false ∧
    (HasProperty st obj name exc).2.1.type ≠ PP_VarType.void ∧
    (HasMethod st obj name exc).1 = false ∧
    (HasMethod st obj name exc).2.1.type ≠ PP_VarType.void := by
  have hp := hasLookup_invalid st obj name exc
    (fun oe bs => containsName bs (propNames oe)) h
  have hm := hasLookup_invalid st obj name exc
    (fun oe bs => containsName bs (methodNames oe)) h
  exact ⟨hp.1, hp.2, hm.1, hm.2⟩

/-- Witness for C2: a double-typed property name against the live object
of `stW`, as in the `3.14159` case of `TestHasPropertyAndMethod`. -/
theorem has_calls_invalid_args_witness :
    (HasProperty stW ⟨PP_VarType.object, 10⟩ PP_MakeDoubleTag PP_MakeVoid).1 = false ∧
    (HasProperty stW ⟨PP_VarType.object, 10⟩ PP_MakeDoubleTag PP_MakeVoid).2.1.type
      ≠ PP_VarType.void ∧
    (HasMethod stW ⟨PP_VarType.object, 10⟩ PP_MakeDoubleTag PP_MakeVoid).1 = false ∧
    (HasMethod stW ⟨PP_VarType.object, 10⟩ PP_MakeDoubleTag PP_MakeVoid).2.1.type
      ≠ PP_VarType.void :=
  has_calls_invalid_args stW ⟨PP_VarType.object, 10⟩ PP_MakeDoubleTag PP_MakeVoid
    (Or.inl (by decide))

/-- Claim C4: on a live object, a live string name and a void exception on
entry, `HasProperty` returns true exactly when the name is among the
object's properties and `HasMethod` exactly when it is among its methods,
and both leave the exception output void. -/
theorem has_calls_valid_lookup (st : HostState) (obj name exc : PP_Var)
    (se : StringEntry) (oe : ObjectEntry)
    (hexc : exc.type = PP_VarType.void)
    (hn : name.type = PP_VarType.string)
    (hns : lookupKey name.value st.strings = some se)
    (ho : obj.type = PP_VarType.object)
    (hos : lookupKey obj.value st.objects = some oe) :
    HasProperty st obj name exc = (containsName se.bytes (propNames oe), exc, st) ∧
    (HasProperty st obj name exc).2.1.type = PP_VarType.void ∧
    HasMethod st obj name exc = (containsName se.bytes (methodNames oe), exc, st) ∧
    (HasMethod st obj name exc).2.1.type = PP_VarType.void := by
  have hp := hasLookup_valid st obj name exc se oe
    (fun oe bs => containsName bs (propNames oe)) hexc hn hns ho hos
  have hm := hasLookup_valid st obj name exc se oe
    (fun oe bs => containsName bs (methodNames oe)) hexc hn hns ho hos
  refine ⟨hp, ?_, hm, ?_⟩
  · rw [show HasProperty st obj name exc = _ from hp]
    exact hexc
  · rw [show HasMethod st obj name exc = _ from hm]
    exact hexc

/-- Witness for C4: on the live object of `stW`, the existing name "find"
(id 1) gives true and the nonexistent name "superEvilBit" (id 4) gives
false, with the exception void in both cases. -/
theorem has_calls_valid_lookup_witness :
    (HasProperty stW ⟨PP_VarType.object, 10⟩ ⟨PP_VarType.string, 1⟩ PP_MakeVoid
      = (true, PP_MakeVoid, stW) ∧
     (HasProperty stW ⟨PP_VarType.object, 10⟩ ⟨PP_VarType.string, 1⟩ PP_MakeVoid).2.1.type
      = PP_VarType.void ∧
     HasMethod stW ⟨PP_VarType.object, 10⟩ ⟨PP_VarType.string, 1⟩ PP_MakeVoid
      = (true, PP_MakeVoid, stW) ∧
     (HasMethod stW ⟨PP_VarType.object, 10⟩ ⟨PP_VarType.string, 1⟩ PP_MakeVoid).2.1.type
      = PP_VarType.void) ∧
    (HasProperty stW ⟨PP_VarType.object, 10⟩ ⟨PP_VarType.string, 4⟩ PP_MakeVoid
      = (false, PP_MakeVoid, stW) ∧
     (HasProperty stW ⟨PP_VarType.object, 10⟩ ⟨PP_VarType.string, 4⟩ PP_MakeVoid).2.1.type
      = PP_VarType.void ∧
     HasMethod stW ⟨PP_VarType.object, 10⟩ ⟨PP_VarType.string, 4⟩ PP_MakeVoid
      = (false, PP_MakeVoid, stW) ∧
     (HasMethod stW ⟨PP_VarType.object, 10⟩ ⟨PP_VarType.string, 4⟩ PP_MakeVoid).2.1.type
      = PP_VarType.void) :=
  ⟨has_calls_valid_lookup stW ⟨PP_VarType.object, 10⟩ ⟨PP_VarType.string, 1⟩
      PP_MakeVoid ⟨kFindBytes, 1⟩ ⟨1, [(kFindBytes, true), (kScrollXBytes, false)]⟩
      rfl rfl (by decide) rfl (by decide),
   has_calls_valid_lookup stW ⟨PP_VarType.object, 10⟩ ⟨PP_VarType.string, 4⟩
      PP_MakeVoid ⟨kMissingBytes, 1⟩ ⟨1, [(kFindBytes, true), (kScrollXBytes, false)]⟩
      rfl rfl (by decide) rfl (by decide)⟩

/-- Claim C8: a `HasProperty` or `HasMethod` call that starts with a
non-void exception output performs no lookup (the state is untouched),
returns false, and leaves the exception output non-void. -/
theorem has_calls_preset_exception (st : HostState) (obj name exc : PP_Var)
    (h : exc.type ≠ PP_VarType.void) :
    HasProperty st obj name exc = (false, exc, st) ∧
    HasMethod st obj name exc = (false, exc, st) :=
  ⟨hasLookup_preset st obj name exc _ h, hasLookup_preset st obj name exc _ h⟩

/-- Witness for C8: a pre-set string exception (id 4) with the valid
object of `stW` and the existing name "find". -/
theorem has_calls_preset_exception_witness :
    HasProperty stW ⟨PP_VarType.object, 10⟩ ⟨PP_VarType.string, 1⟩ ⟨PP_VarType.string, 4⟩
      = (false, ⟨PP_VarType.string, 4⟩, stW) ∧
    HasMethod stW ⟨PP_VarType.object, 10⟩ ⟨PP_VarType.string, 1⟩ ⟨PP_VarType.string, 4⟩
      = (false, ⟨PP_VarType.string, 4⟩, stW) :=
  has_calls_preset_exception stW ⟨PP_VarType.object, 10⟩ ⟨PP_VarType.string, 1⟩
    ⟨PP_VarType.string, 4⟩ (by decide)

/-- `hasLookup` on a live string name whose identifier is dead fails with
a fresh exception. -/
lemma hasLookup_dead_name (st : HostState) (obj name exc : PP_Var)
    (check : ObjectEntry → List Nat → Bool)
    (hexc : exc.type = PP_VarType.void)
    (hn : (if name.type = PP_VarType.string
           then lookupKey name.value st.strings else none) = none) :
    hasLookup st obj name exc check = (false, mkException st) := by
  simp [hasLookup, hexc, hn, mkException, allocString]

/-- A `hasLookup` check implied pointwise by another one reports true
whenever the first does. -/
lemma hasLookup_mono (st : HostState) (obj name exc : PP_Var)
    (c1 c2 : ObjectEntry → List Nat → Bool)
    (hc : ∀ oe bs, c1 oe bs = true → c2 oe bs = true)
    (h : (hasLookup st obj name exc c1).1 = true) :
    (hasLookup st obj name exc c2).1 = true := by
  by_cases he : exc.type = PP_VarType.void
  · cases hn : (if name.type = PP_VarType.string
                then lookupKey name.value st.strings else none) with
    | none =>
      rw [hasLookup_dead_name st obj name exc c1 he hn] at h
      simp at h
    | some se =>
      have hnt : name.type = PP_VarType.string := by
        by_contra hcon
        rw [if_neg hcon] at hn
        cases hn
      rw [if_pos hnt] at hn
      by_cases ho : obj.type = PP_VarType.object
      · cases hos : lookupKey obj.value st.objects with
        | none =>
          rw [(hasLookup_invalid st obj name exc c1 (Or.inr (Or.inr hos))).1] at h
          simp at h
        | some oe =>
          rw [hasLookup_valid st obj name exc se oe c1 he hnt hn ho hos] at h
          rw [hasLookup_valid st obj name exc se oe c2 he hnt hn ho hos]
          exact hc oe se.bytes h
      · rw [(hasLookup_invalid st obj name exc c1 (Or.inr (Or.inl ho))).1] at h
        simp at h
  · rw [hasLookup_preset st obj name exc c1 he] at h
    simp at h

/-- Claim C9: whenever `HasMethod` reports true, `HasProperty` on the same
state, target, name and exception also reports true — method lookup is a
superset check. -/
theorem hasMethod_implies_hasProperty (st : HostState) (obj name exc : PP_Var)
    (h : (HasMethod st obj name exc).1 = true) :
    (HasProperty st obj name exc).1 = true :=
  hasLookup_mono st obj name exc _ _
    (fun oe bs => methodNames_subset_propNames oe bs) h

/-- Witness for C9: "find" (string id 1) is a method of the live object of
`stW`, so it is also a property. -/
theorem hasMethod_implies_hasProperty_witness :
    (HasProperty stW ⟨PP_VarType.object, 10⟩ ⟨PP_VarType.string, 1⟩ PP_MakeVoid).1
      = true :=
  hasMethod_implies_hasProperty stW ⟨PP_VarType.object, 10⟩ ⟨PP_VarType.string, 1⟩
    PP_MakeVoid (by decide)

/-! ## Creation/release sequences (claim C7) -/

/-- Modelled from the spec: one refcounted-payload creation across the
boundary — a string variant built by `VarFromUtf8` from a byte buffer, or
an object variant handed out by the host. -/
inductive Creation where
  | str (bytes : List Nat)
  | obj (props : List (List Nat × Bool))

/-- Perform one creation. -/
def createOne (st : HostState) : Creation → PP_Var × HostState
  | Creation.str bytes => VarFromUtf8 st (some bytes) bytes.length
  | Creation.obj props => allocObject st props

/-- Perform a bounded sequence of creations, returning the final state and
every variant handed out. -/
def createAll (st : HostState) : List Creation → HostState × List PP_Var
  | [] => (st, [])
  | c :: rest =>
    ((createAll (createOne st c).2 rest).1,
     (createOne st c).1 :: (createAll (createOne st c).2 rest).2)

/-- Release every acquired reference, in reverse acquisition order (the
order the C++ wrapper destructors run on scope exit). -/
def releaseAll (vs : List PP_Var) (st : HostState) : HostState :=
  vs.foldr (fun v acc => Release acc v) st

/-- Releasing everything a creation sequence handed out restores the
string and object tables exactly. -/
lemma createAll_release_restores (cs : List Creation) (st : HostState) :
    (releaseAll (createAll st cs).2 (createAll st cs).1).strings = st.strings ∧
    (releaseAll (createAll st cs).2 (createAll st cs).1).objects = st.objects := by
  induction cs generalizing st with
  | nil => exact ⟨rfl, rfl⟩
  | cons c rest ih =>
    cases c with
    | str bytes =>
      by_cases hv : validUtf8 bytes = true
      · have hone : createOne st (Creation.str bytes) = allocString st bytes := by
          simp [createOne, VarFromUtf8, readBuffer, hv]
        have hca : createAll st (Creation.str bytes :: rest)
            = ((createAll (allocString st bytes).2 rest).1,
               (allocString st bytes).1
                 :: (createAll (allocString st bytes).2 rest).2) := by
          simp [createAll, hone]
        rw [hca]
        have hrel : releaseAll
            ((allocString st bytes).1
              :: (createAll (allocString st bytes).2 rest).2)
            (createAll (allocString st bytes).2 rest).1
            = Release (releaseAll (createAll (allocString st bytes).2 rest).2
                (createAll (allocString st bytes).2 rest).1)
              (allocString st bytes).1 := rfl
        rw [hrel]
        obtain ⟨ih1, ih2⟩ := ih (allocString st bytes).2
        simp only [allocString] at ih1 ih2
        constructor
        · simp [Release, allocString, lookupKey, eraseKey, ih1, ih2]
        · simp [Release, allocString, lookupKey, eraseKey, ih1, ih2]
      · have hv2 : validUtf8 bytes = false := by
          cases hvb : validUtf8 bytes
          · rfl
          · exact absurd hvb hv
        have hone : createOne st (Creation.str bytes) = (PP_MakeNull, st) := by
          simp [createOne, VarFromUtf8, readBuffer, hv2]
        have hca : createAll st (Creation.str bytes :: rest)
            = ((createAll st rest).1,
               PP_MakeNull :: (createAll st rest).2) := by
          simp [createAll, hone]
        rw [hca]
        have hrel : releaseAll (PP_MakeNull :: (createAll st rest).2)
            (createAll st rest).1
            = Release (releaseAll (createAll st rest).2 (createAll st rest).1)
              PP_MakeNull := rfl
        rw [hrel]
        obtain ⟨ih1, ih2⟩ := ih st
        constructor
        · simp [Release, PP_MakeNull, ih1]
        · simp [Release, PP_MakeNull, ih2]
    | obj props =>
      have hone : createOne st (Creation.obj props) = allocObject st props := rfl
      have hca : createAll st (Creation.obj props :: rest)
          = ((createAll (allocObject st props).2 rest).1,
             (allocObject st props).1
               :: (createAll (allocObject st props).2 rest).2) := by
        simp [createAll, hone]
      rw [hca]
      have hrel : releaseAll
          ((allocObject st props).1
            :: (createAll (allocObject st props).2 rest).2)
          (createAll (allocObject st props).2 rest).1
          = Release (releaseAll (createAll (allocObject st props).2 rest).2
              (createAll (allocObject st props).2 rest).1)
            (allocObject st props).1 := rfl
      rw [hrel]
      obtain ⟨ih1, ih2⟩ := ih (allocObject st props).2
      simp only [allocObject] at ih1 ih2
      constructor
      · simp [Release, allocObject, lookupKey, eraseKey, ih1, ih2]
      · simp [Release, allocObject, lookupKey, eraseKey, ih1, ih2]

/-- Claim C7: the live-object count observed after a bounded sequence of
string/object variant creations followed by the release of every reference
acquired in the sequence equals the count observed before it. -/
theorem live_object_count_restored (st : HostState) (cs : List Creation) :
    GetLiveObjectCount (releaseAll (createAll st cs).2 (createAll st cs).1)
      = GetLiveObjectCount st := by
  have h := createAll_release_restores cs st
  rw [GetLiveObjectCount, GetLiveObjectCount, h.1, h.2]
